import Mathlib

/-!
Verification development for the `sqlalchemy-service` library.

We shallowly embed the query-building and session-orchestration logic of
`sqlalchemy_service/base_service/service.py` and the database-creation retry
loop of `sqlalchemy_service/base_db/create.py`, and prove the specified
behaviours about the embedding.

Conventions of the embedding:
* Python `None` values inside keyword-argument dictionaries are `Option.none`.
* A SQLAlchemy `Select` is modelled by the clauses the library manipulates:
  equality filters, offset/limit, and loader options.
* Side effects on the `AsyncSession` are modelled as an explicit action trace.
* Python strings are Lean `String`s; `str.split`, `str.strip`, `str.capitalize`
  are translated below.
-/

namespace SqlService

/-! ### Python string primitives -/

/-- Python `str.capitalize()`: first character upper-cased, the rest
lower-cased (ASCII behaviour). -/
def pyCapitalize (s : String) : String :=
  match s.data with
  | [] => ""
  | c :: rest => ⟨Char.toUpper c :: rest.map Char.toLower⟩

/-- Strip every leading and trailing occurrence of `c` from a character list. -/
def stripCharList (c : Char) (l : List Char) : List Char :=
  ((l.dropWhile (· = c)).reverse.dropWhile (· = c)).reverse

/-- Python `str.strip(c)` for a single-character argument. -/
def pyStripChar (c : Char) (s : String) : String :=
  ⟨stripCharList c s.data⟩

/-- Python `str.strip()` with no argument: whitespace stripped from both
ends. -/
def pyStripWhitespace (s : String) : String :=
  ⟨((s.data.dropWhile Char.isWhitespace).reverse.dropWhile
      Char.isWhitespace).reverse⟩

/-- Worker for Python `str.split(sep)` with a non-empty separator: scan left
to right, cutting at each (non-overlapping) occurrence of `sep`.  The fuel
argument makes the recursion structural; it never runs out when started at
the input's length, since every step consumes at least one character. -/
def pySplitGo (sep : List Char) (fuel : Nat) (s acc : List Char) :
    List (List Char) :=
  match fuel, s with
  | _, [] => [acc.reverse]
  | 0, s => [acc.reverse ++ s]
  | fuel + 1, c :: rest =>
    if sep ≠ [] ∧ sep.isPrefixOf (c :: rest) then
      acc.reverse :: pySplitGo sep fuel ((c :: rest).drop sep.length) []
    else
      pySplitGo sep fuel rest (c :: acc)

/-- Python `s.split(sep)` for a non-empty separator. -/
def pySplit (sep s : String) : List String :=
  (pySplitGo sep.data s.data.length s.data []).map fun l => ⟨l⟩

/-- Python `sub in s` for strings (substring containment), expressed through
the same split used by `_commit`: `sub` occurs in `s` iff splitting on it
yields more than one part. -/
def pyContainsSub (sub s : String) : Bool :=
  (pySplit sub s).length != 1

/-! ### HTTP-style error signals and the response-status carrier -/

/-- Model of `fastapi.HTTPException` as raised by the service. -/
structure HTTPException where
  statusCode : Nat
  detail : Option String
deriving DecidableEq, Repr

/-! ### Session action traces -/

/-- Observable calls the service makes on the underlying `AsyncSession`. -/
inductive SessionAction (E : Type) where
  | add (e : E)
  | commitAttempt
  | rollback
  | flush
  | refreshObj (e : E)
  | deleteObj (e : E)
  | closeSession
deriving DecidableEq, Repr

/-- Outcome of `await self.session.commit()` as seen by `_commit`. -/
inductive CommitOutcome where
  | ok
  | integrityError (origMsg : String)
deriving DecidableEq, Repr

/-- Result of running `_commit`: the session actions performed, and the
exception propagated out of it, if any. -/
structure CommitRun (E : Type) where
  actions : List (SessionAction E)
  raised : Option HTTPException
deriving DecidableEq, Repr

/-- The marker `_commit` looks for inside the integrity error's message. -/
def notPresentMarker : String := "is not present in table"

/-- The table-name extraction pipeline of `_commit`:
`str(e.orig).split('is not present in table')[1]` then `.strip()`,
`.capitalize()`, `.strip('"')`, `.strip("'")`. -/
def humanizeTableName (msg : String) : String :=
  let tableName := (pySplit notPresentMarker msg).getD 1 ""
  let tableName := pyCapitalize (pyStripWhitespace tableName)
  let tableName := pyStripChar '\'' (pyStripChar '"' tableName)
  tableName

/-- Embedding of `BaseService._commit` (service.py:372-399): a no-op unless the service is
in self-managed mode (`_need_commit_and_close`); otherwise attempt the commit,
and on `IntegrityError` roll back, then classify by message content: 409
conflict when the foreign-key marker is absent, else 404 with the humanized
table name in the detail. -/
def serviceCommit (E : Type) (needCommitAndClose : Bool) (outcome : CommitOutcome) :
    CommitRun E :=
  if needCommitAndClose = false then
    { actions := [], raised := none }
  else
    match outcome with
    | .ok => { actions := [.commitAttempt], raised := none }
    | .integrityError msg =>
      if pyContainsSub notPresentMarker msg = false then
        { actions := [.commitAttempt, .rollback]
          raised := some { statusCode := 409, detail := none } }
      else
        { actions := [.commitAttempt, .rollback]
          raised := some { statusCode := 404
                           detail := some (humanizeTableName msg ++ " not found") } }

/-! ### Service state and CRUD operation runs

The mutable per-service state the claims talk about: the self-management
flag decided in `BaseService.__init__`, the `objects_to_refresh`
accumulation list, and the FastAPI response-status carrier. -/

structure ServiceState (E : Type) where
  needCommitAndClose : Bool
  objectsToRefresh : List E
  statusCode : Option Nat
deriving DecidableEq, Repr

/-- Embedding of `BaseService.__init__` (service.py:193-208): the self-management flag is
`isinstance(session, DependsClass)` — true exactly when the session argument
is the unresolved dependency-injection placeholder.  The refresh list starts
empty and no response status is set. -/
def initState (E : Type) (sessionIsDependsPlaceholder : Bool) : ServiceState E :=
  { needCommitAndClose := sessionIsDependsPlaceholder
    objectsToRefresh := []
    statusCode := none }

/-- Result of one service operation: final state, session-action trace, and
either the returned value or the propagated exception. -/
structure OpRun (E α : Type) where
  state : ServiceState E
  actions : List (SessionAction E)
  result : Except HTTPException α
deriving Repr

/-- Embedding of `BaseService._get_one` (service.py:235-253), abstracted over the scalar
result of the built query (`found`): raise 404 when nothing matched and the
exception is not muted, otherwise return the object (possibly the absence
marker `none`). -/
def getOne (E : Type) (found : Option E) (muteNotFoundException : Bool) :
    Except HTTPException (Option E) :=
  if found.isNone = true ∧ muteNotFoundException = false then
    .error { statusCode := 404, detail := none }
  else
    .ok found

/-! #### Field assignment in `_update_obj`

An entity's attributes are modelled as a function from keys to values, where
a value is `Option β` (`none` is Python `None`).  The merged
`object_schema | kwargs` dictionary is a key-value list with distinct keys. -/

/-- One iteration of the field loop of `_update_obj` (service.py:301-309):
skip the field when its new value is `None` and `none_as_value` is off;
otherwise compare old against new (`field_is_modified = attr != value`),
assign (`setattr`), and accumulate `modified`. -/
def applyFieldStep {K β : Type} [DecidableEq K] [DecidableEq β]
    (noneAsValue : Bool) (acc : (K → Option β) × Bool) (kv : K × Option β) :
    (K → Option β) × Bool :=
  if noneAsValue = false ∧ kv.2 = none then
    acc
  else
    let fieldIsModified := acc.1 kv.1 != kv.2
    (Function.update acc.1 kv.1 kv.2, acc.2 || fieldIsModified)

/-- The field loop of `_update_obj` over the merged
`object_schema | kwargs` items, starting unmodified. -/
def applyFields {K β : Type} [DecidableEq K] [DecidableEq β]
    (obj : K → Option β) (fields : List (K × Option β)) (noneAsValue : Bool) :
    (K → Option β) × Bool :=
  fields.foldl (applyFieldStep noneAsValue) (obj, false)

/-- A field of the merged dictionary is actually applied (not skipped) by the
loop of `_update_obj`. -/
def fieldApplied {K β : Type} (noneAsValue : Bool) (kv : K × Option β) : Prop :=
  ¬(noneAsValue = false ∧ kv.2 = none)

instance {K β : Type} [DecidableEq β] (noneAsValue : Bool) (kv : K × Option β) :
    Decidable (fieldApplied noneAsValue kv) := by
  unfold fieldApplied; infer_instance

/-- Embedding of `BaseService._update_obj` (service.py:283-314): apply the merged fields to
the entity, `session.add` it, `_commit`, and if no field was actually
modified set the response status to 304. -/
def updateObjOp {K β : Type} [DecidableEq K] [DecidableEq β]
    (st : ServiceState (K → Option β)) (obj : K → Option β)
    (fields : List (K × Option β)) (noneAsValue : Bool)
    (outcome : CommitOutcome) : OpRun (K → Option β) (K → Option β) :=
  let applied := applyFields obj fields noneAsValue
  let commitRun := serviceCommit (K → Option β) st.needCommitAndClose outcome
  match commitRun.raised with
  | some e =>
    { state := st, actions := .add applied.1 :: commitRun.actions, result := .error e }
  | none =>
    { state :=
        if applied.2 = false then { st with statusCode := some 304 } else st
      actions := .add applied.1 :: commitRun.actions
      result := .ok applied.1 }

/-- Embedding of `BaseService._update` (service.py:256-281), abstracted over the entity the
id/filter lookup finds (`found`): `_get_one` (unmuted) raises 404 before any
mutation when nothing matches; otherwise `_update_obj` runs and the updated
object is appended to `objects_to_refresh`. -/
def updateOp {K β : Type} [DecidableEq K] [DecidableEq β]
    (st : ServiceState (K → Option β)) (found : Option (K → Option β))
    (fields : List (K × Option β)) (noneAsValue : Bool)
    (outcome : CommitOutcome) : OpRun (K → Option β) (K → Option β) :=
  match found with
  | none =>
    -- `self._get_one(...)` with the exception not muted: raises here,
    -- before `_update_obj` and the refresh-list append are reached.
    { state := st, actions := [], result := .error { statusCode := 404, detail := none } }
  | some obj =>
    let inner := updateObjOp st obj fields noneAsValue outcome
    match inner.result with
    | .error e => { inner with result := .error e }
    | .ok newObj =>
      { state := { inner.state with
                    objectsToRefresh := inner.state.objectsToRefresh ++ [newObj] }
        actions := inner.actions
        result := .ok newObj }

/-- Embedding of `BaseService._create` (service.py:316-343), abstracted over the entity
constructed from schema and overrides: `session.add`, `_commit`, append to
`objects_to_refresh`, set response status 201. -/
def createOp (E : Type) (st : ServiceState E) (obj : E) (outcome : CommitOutcome) :
    OpRun E E :=
  let commitRun := serviceCommit E st.needCommitAndClose outcome
  match commitRun.raised with
  | some e =>
    { state := st, actions := .add obj :: commitRun.actions, result := .error e }
  | none =>
    { state := { st with
                  objectsToRefresh := st.objectsToRefresh ++ [obj]
                  statusCode := some 201 }
      actions := .add obj :: commitRun.actions
      result := .ok obj }

/-- Embedding of `BaseService._delete_obj` (service.py:354-360): `session.delete`,
`_commit`, set response status 204. -/
def deleteObjOp (E : Type) (st : ServiceState E) (obj : E) (outcome : CommitOutcome) :
    OpRun E Unit :=
  let commitRun := serviceCommit E st.needCommitAndClose outcome
  match commitRun.raised with
  | some e =>
    { state := st, actions := .deleteObj obj :: commitRun.actions, result := .error e }
  | none =>
    { state := { st with statusCode := some 204 }
      actions := .deleteObj obj :: commitRun.actions
      result := .ok () }

/-- Embedding of `BaseService._delete` (service.py:346-352), abstracted over the entity the
id/filter lookup finds: `_get_one` (unmuted) raises 404 before any mutation
when nothing matches; otherwise `_delete_obj` runs. -/
def deleteOp (E : Type) (st : ServiceState E) (found : Option E)
    (outcome : CommitOutcome) : OpRun E Unit :=
  match found with
  | none =>
    { state := st, actions := [], result := .error { statusCode := 404, detail := none } }
  | some obj => deleteObjOp E st obj outcome

/-! ### The query model

A SQLAlchemy `Select` restricted to the clauses this library manipulates.
`Select` methods (`filter_by`, `offset`, `limit`, `options`) are generative:
each returns a new statement, leaving the receiver unchanged. -/

/-- A loader option (SQLAlchemy `Load`), as produced by `selectinload` and
chained relationship calls.  In SQLAlchemy 2.x a relationship strategy call
on a `Load` appends a load element for the element's path to `context` and
advances the option's current `path` to that element's path, so that later
chained calls are resolved relative to the newly loaded relation; the call
mutates the option in place and also returns it. -/
structure Load (R : Type) where
  path : List R
  context : List (List R)
deriving DecidableEq, Repr

/-- Model of `sqlalchemy.orm.selectinload(attr)` on a single relationship attribute. -/
def selectinload {R : Type} (attr : R) : Load R :=
  { path := [attr], context := [[attr]] }

/-- Model of `Load.subqueryload(attr)`: add a subquery-load element for `attr` relative
to the option's current path, and advance the current path. -/
def Load.subqueryload {R : Type} (l : Load R) (attr : R) : Load R :=
  { path := l.path ++ [attr], context := l.context ++ [l.path ++ [attr]] }

/-- The `Select` statements built by the query builders. -/
structure SelectQuery (V R : Type) where
  filters : List (String × Option V)
  offsetVal : Option Int
  limitVal : Option Int
  options : List (Load R)
deriving DecidableEq, Repr

/-- Model of `select(cls.base_table)`: the bare statement. -/
def emptySelect (V R : Type) : SelectQuery V R :=
  { filters := [], offsetVal := none, limitVal := none, options := [] }

/-- Model of `query.filter_by(**kwargs)`: append one equality predicate per key. -/
def SelectQuery.filterBy {V R : Type} (q : SelectQuery V R)
    (kwargs : List (String × Option V)) : SelectQuery V R :=
  { q with filters := q.filters ++ kwargs }

/-- Model of `query.offset(o).limit(c)`. -/
def SelectQuery.offsetLimit {V R : Type} (q : SelectQuery V R) (o c : Int) :
    SelectQuery V R :=
  { q with offsetVal := some o, limitVal := some c }

/-- A row satisfies every equality predicate of the query (predicates compose
as logical AND; a `none` predicate value means the column must be NULL). -/
def SelectQuery.rowMatches {V R : Type} [DecidableEq V] (q : SelectQuery V R)
    (row : String → Option V) : Bool :=
  q.filters.all fun kv => row kv.1 = kv.2

/-- Embedding of `QueryService.__query_pagination` (service.py:70-83): default the page to
0 when only a count is given and the count to 20 when only a page is given;
when both are (now) present, return the query with offset `page * count` and
limit `count`; the two `if` statements are sequential. -/
def queryPagination {V R : Type} (query : SelectQuery V R)
    (page count : Option Int) : SelectQuery V R :=
  let page := if page.isNone ∧ count.isSome then some 0 else page
  let count := if page.isSome ∧ count.isNone then some 20 else count
  match page, count with
  | some p, some c => query.offsetLimit (p * c) c
  | _, _ => query

/-- Embedding of `QueryService.__query_filter_without_none_as_value` (service.py:138-143):
drop every keyword whose value is `None`, `filter_by` the rest one at a
time. -/
def queryFilterWithoutNoneAsValue {V R : Type} [DecidableEq V]
    (query : SelectQuery V R) (kwargs : List (String × Option V)) :
    SelectQuery V R :=
  kwargs.foldl
    (fun q kv => if kv.2.isSome then q.filterBy [kv] else q)
    query

/-- Embedding of `QueryService._query_filter` (service.py:116-126): with `none_as_value`
every keyword (including `None`-valued ones) becomes a predicate; otherwise
`None`-valued keywords are skipped. -/
def queryFilter {V R : Type} [DecidableEq V] (query : SelectQuery V R)
    (noneAsValue : Bool) (filters : List (String × Option V)) :
    SelectQuery V R :=
  if noneAsValue then
    query.filterBy filters
  else
    queryFilterWithoutNoneAsValue query filters

/-! #### Eager-load directive normalization -/

/-- One entry of the `TableAttributesType` union: either a bare relationship
attribute, or the `TableAttributeWithSubqueryLoad` mapping of a parent
relation with the child relations to load beneath it. -/
inductive TableAttrEntry (R : Type) where
  | single (attr : R)
  | withSub (parent : R) (children : List R)
deriving DecidableEq, Repr

/-- The argument union accepted by `_query_add_select_in_load`: one entry, or
a list mixing both entry forms. -/
inductive TableAttributes (R : Type) where
  | one (entry : TableAttrEntry R)
  | many (entries : List (TableAttrEntry R))
deriving DecidableEq, Repr

/-- The `if not isinstance(table_attributes, list)` wrapping step. -/
def TableAttributes.toList {R : Type} : TableAttributes R → List (TableAttrEntry R)
  | .one entry => [entry]
  | .many entries => entries

/-- The loader option built for one entry by the loop body of
`_query_add_select_in_load` (service.py:94-101): `selectinload(parent)`
followed by one `subqueryload(child)` call per child.  The chained call
mutates the option in place (and returns it, unused by the source), so the
fold accumulates on the same option. -/
def entryLoad {R : Type} : TableAttrEntry R → Load R
  | .single attr => selectinload attr
  | .withSub parent children =>
    children.foldl (fun acc child => acc.subqueryload child) (selectinload parent)

/-- Embedding of `QueryService._query_add_select_in_load` (service.py:85-105): normalize to
a list, build one loader option per entry, and attach them all with
`query.options(*select_in_loads)`. -/
def queryAddSelectInLoad {V R : Type} (query : SelectQuery V R)
    (tableAttributes : TableAttributes R) : SelectQuery V R :=
  { query with options := query.options ++ tableAttributes.toList.map entryLoad }

/-- Embedding of `QueryService._get_list_query` (service.py:50-68): start from the bare
select, attach the eager-load options, call `__query_pagination` — whose
return value the source does not assign, so the paginated statement is
discarded — and apply the filters. -/
def getListQuery {V R : Type} [DecidableEq V]
    (page count : Option Int) (selectInLoad : Option (TableAttributes R))
    (noneAsValue : Bool) (filters : List (String × Option V)) :
    SelectQuery V R :=
  let query := emptySelect V R
  let query :=
    match selectInLoad with
    | some tas => queryAddSelectInLoad query tas
    | none => query
  -- service.py:66 — `cls.__query_pagination(query, page, count)` without
  -- assignment: `Select.offset`/`Select.limit` are generative, so the
  -- result is lost.
  let _ := queryPagination query page count
  let query := queryFilter query noneAsValue filters
  query

/-! ### Scope exit (`__aexit__`) and `refresh` -/

/-- Embedding of `BaseService.refresh` (service.py:362-370): flush the accumulated objects
only when the list is non-empty and the service is (still) marked
self-managed; then `session.refresh` each accumulated object, popping from
the end of the list until it is empty. -/
def refreshRun (E : Type) (st : ServiceState E) :
    List (SessionAction E) × ServiceState E :=
  let flushActs : List (SessionAction E) :=
    if st.objectsToRefresh.isEmpty = false ∧ st.needCommitAndClose = true then
      [.flush]
    else
      []
  (flushActs ++ st.objectsToRefresh.reverse.map .refreshObj,
    { st with objectsToRefresh := [] })

/-- Result of running `__aexit__`: final state, session actions, the
exception propagating out of the exit path (if any), and whether the session
generator was advanced — which is what returns the pooled connection
(the `async with` inside `get_session` closes the session when resumed). -/
structure ExitRun (E : Type) where
  state : ServiceState E
  actions : List (SessionAction E)
  raised : Option HTTPException
  sessionReleased : Bool
deriving Repr

/-- Embedding of `BaseService.__aexit__` (service.py:409-417) for a scoped unit of work
(entered via `__aenter__`, so a session generator exists).  The method
receives the body's exception info in `*exc_info` and never reads it —
`bodyRaised` is deliberately unused, mirroring the source.  Steps: set the
self-managed flag, `_commit` (its exception, if any, aborts the remaining
steps), clear the flag, `refresh`, advance the session generator (releasing
the session) and swallow its `StopAsyncIteration`. -/
def aexitRun (E : Type) (bodyRaised : Bool) (st : ServiceState E)
    (outcome : CommitOutcome) : ExitRun E :=
  let _ := bodyRaised
  let st1 := { st with needCommitAndClose := true }
  let commitRun := serviceCommit E true outcome
  match commitRun.raised with
  | some e =>
    -- `_commit` raised: the flag reset, `refresh` and the generator advance
    -- are all skipped; the session is not released on this path.
    { state := st1
      actions := commitRun.actions
      raised := some e
      sessionReleased := false }
  | none =>
    let st2 := { st1 with needCommitAndClose := false }
    let refreshed := refreshRun E st2
    { state := refreshed.2
      actions := commitRun.actions ++ refreshed.1 ++ [.closeSession]
      raised := none
      sessionReleased := true }

/-! ### The database-creation retry loop (`base_db/create.py`) -/

/-- What one `driver.connect` attempt does. -/
inductive AttemptResult where
  | ok
  | invalidCatalogName
  | otherError
deriving DecidableEq, Repr

/-- Observable steps of `connect_create_if_not_exists`. -/
inductive ConnectAction where
  | connectAttempt (i : Nat)
  | createDatabase
  | sleepSeconds (n : Nat)
deriving DecidableEq, Repr

/-- How the routine finishes.  All three constructors are normal returns —
the source function has no `raise` statement: on success or on having
created the database it `break`s out of the loop, and when all attempts
fail the `for` loop simply ends and the function returns `None`. -/
inductive ConnectOutcome where
  | connected
  | createdDatabase
  | fellThrough
deriving DecidableEq, Repr

/-- A run of the retry loop: its actions and how it finished. -/
structure ConnectRun where
  actions : List ConnectAction
  outcome : ConnectOutcome
deriving DecidableEq, Repr

/-- The `for i in range(20)` body of `connect_create_if_not_exists`
(create.py:43-70): try to connect and `break`; on `InvalidCatalogNameError`
create the database and `break`; on any other exception log and
`await asyncio.sleep(5)`, then go around the loop. -/
def connectLoop (results : Nat → AttemptResult) (i fuel : Nat) : ConnectRun :=
  match fuel with
  | 0 => { actions := [], outcome := .fellThrough }
  | fuel + 1 =>
    match results i with
    | .ok =>
      { actions := [.connectAttempt i], outcome := .connected }
    | .invalidCatalogName =>
      { actions := [.connectAttempt i, .createDatabase], outcome := .createdDatabase }
    | .otherError =>
      let rest := connectLoop results (i + 1) fuel
      { actions := .connectAttempt i :: .sleepSeconds 5 :: rest.actions
        outcome := rest.outcome }

/-- Embedding of `connect_create_if_not_exists` (create.py:39-70): 20 attempts starting at
index 0. -/
def connectCreateIfNotExists (results : Nat → AttemptResult) : ConnectRun :=
  connectLoop results 0 20

/-! ## Theorems for the claims -/

/-- C1 (code bug): `_get_list_query`'s own docstring promises filters *and*
pagination, and `__query_pagination` correctly computes offset `page*count`
and limit `count`, but line 66 discards the helper's return value, so at the
failing input `page=1, count=10` the built query carries no offset and no
limit at all — it is the bare select — even though `__query_pagination`
applied to the same query and arguments yields offset 10 and limit 10. -/
theorem getListQuery_discards_pagination :
    getListQuery (V := Int) (R := Nat) (some 1) (some 10) none false [] =
      emptySelect Int Nat ∧
    queryPagination (emptySelect Int Nat) (some 1) (some 10) =
      (emptySelect Int Nat).offsetLimit 10 10 ∧
    queryPagination (emptySelect Int Nat) none (some 10) =
      (emptySelect Int Nat).offsetLimit 0 10 ∧
    queryPagination (emptySelect Int Nat) (some 3) none =
      (emptySelect Int Nat).offsetLimit 60 20 ∧
    queryPagination (emptySelect Int Nat) none none = emptySelect Int Nat := by
  refine ⟨by decide, by decide, by decide, by decide, by decide⟩

set_option maxRecDepth 100000 in
/-- C2: in self-managed mode""'), a commit failing with an integrity error first
rolls the session back (right after the commit attempt, before the message
is inspected), then classifies: when the message lacks the foreign-key
marker `is not present in table` a 409 conflict is raised; when it carries
the marker a 404 is raised whose detail names the violated table (extracted
from the message and humanized), as witnessed concretely on an
asyncpg-style foreign-key message naming table `parents` and on a plain
unique-constraint message. -/
theorem commit_integrity_rollback_then_classify (E : Type) (msg : String) :
    (serviceCommit E true (.integrityError msg)).actions =
      [.commitAttempt, .rollback] ∧
    (serviceCommit E true (.integrityError msg)).raised =
      some
        (if pyContainsSub notPresentMarker msg then
          { statusCode := 404
            detail := some (humanizeTableName msg ++ " not found") }
        else
          { statusCode := 409, detail := none }) ∧
    (serviceCommit Nat true
        (.integrityError
          "insert or update on table \"children\" violates foreign key constraint \"children_parent_id_fkey\": Key (parent_id)=(7) is not present in table \"parents\"")).raised =
      some { statusCode := 404, detail := some "parents not found" } ∧
    (serviceCommit Nat true
        (.integrityError "duplicate key value violates unique constraint")).raised =
      some { statusCode := 409, detail := none } := by
  refine ⟨?_, ?_, by decide, by decide⟩
  · cases h : pyContainsSub notPresentMarker msg <;>
      simp [serviceCommit, h]
  · cases h : pyContainsSub notPresentMarker msg <;>
      simp [serviceCommit, h]

/-- C9: `_get_one` on filters matching no entity raises a 404 when the
not-found exception is not muted, and returns the absence marker when it
is muted. -/
theorem get_one_absent_raises_or_returns_marker (E : Type) :
    getOne E none false = .error { statusCode := 404, detail := none } ∧
    getOne E none true = .ok none := by
  exact ⟨rfl, rfl⟩

/-- C10: `_update` and `_delete` on an id/filter matching no entity raise the
404 before any mutation: the service state (refresh list, response status,
self-management flag) is returned untouched and the session-action trace is
empty — no entity is added, modified or deleted, and no commit is
attempted. -/
theorem update_delete_absent_leave_state_unchanged
    (K β : Type) [DecidableEq K] [DecidableEq β]
    (st : ServiceState (K → Option β)) (fields : List (K × Option β))
    (noneAsValue : Bool) (outcome : CommitOutcome) :
    updateOp st none fields noneAsValue outcome =
      { state := st, actions := []
        result := .error { statusCode := 404, detail := none } } ∧
    ∀ (E : Type) (st' : ServiceState E),
      deleteOp E st' none outcome =
        { state := st', actions := []
          result := .error { statusCode := 404, detail := none } } := by
  exact ⟨rfl, fun _ _ => rfl⟩

/-- C3 counterexample: a scoped unit of work whose body raised an unhandled
exception (`bodyRaised = true`) with one accumulated entity and a clean
exit-time commit still performs the REFRESHED step on the way out —
`__aexit__` ignores its `*exc_info` — contradicting the claim that such an
exit transitions directly to CLOSED without refreshing. -/
theorem aexit_body_exception_still_refreshes :
    (aexitRun Nat true
        { needCommitAndClose := false, objectsToRefresh := [5], statusCode := none }
        .ok).actions =
      [.commitAttempt, .refreshObj 5, .closeSession] ∧
    (aexitRun Nat true
        { needCommitAndClose := false, objectsToRefresh := [5], statusCode := none }
        .ok).sessionReleased = true := by
  exact ⟨rfl, rfl⟩

/-- C3 (amended): the exit path of a scoped unit of work is independent of
whether the body raised (the exception info is ignored): commit is attempted
and each accumulated entity is refreshed before the session is released, and
the session is released back to the pool exactly when the exit-time commit
does not itself raise — when it raises, refresh and release are skipped. -/
theorem aexit_exit_path_ignores_body_exception
    (E : Type) (bodyRaised : Bool) (st : ServiceState E)
    (outcome : CommitOutcome) :
    aexitRun E bodyRaised st outcome = aexitRun E false st outcome ∧
    ((aexitRun E bodyRaised st outcome).sessionReleased = true ↔
      (serviceCommit E true outcome).raised = none) ∧
    ((serviceCommit E true outcome).raised = none →
      (aexitRun E bodyRaised st outcome).state.objectsToRefresh = [] ∧
      ∀ e ∈ st.objectsToRefresh,
        SessionAction.refreshObj e ∈ (aexitRun E bodyRaised st outcome).actions) ∧
    (∀ ex, (serviceCommit E true outcome).raised = some ex →
      (aexitRun E bodyRaised st outcome).sessionReleased = false ∧
      (aexitRun E bodyRaised st outcome).raised = some ex ∧
      (aexitRun E bodyRaised st outcome).actions =
        (serviceCommit E true outcome).actions) := by
  refine ⟨rfl, ?_, ?_, ?_⟩
  · cases h : (serviceCommit E true outcome).raised <;>
      simp [aexitRun, h]
  · intro h
    constructor
    · simp [aexitRun, h, refreshRun]
    · intro e he
      simp only [aexitRun, h, refreshRun, List.mem_append]
      refine Or.inl (Or.inr ?_)
      simp only [List.mem_append, List.mem_map, List.mem_reverse]
      exact Or.inr ⟨e, he, rfl⟩
  · intro ex h
    refine ⟨?_, ?_, ?_⟩ <;> simp [aexitRun, h]

/-- C3 witness: the amended theorem applied at a concrete scoped run — body
raised, one accumulated entity, clean commit — yielding the refresh of that
entity on the exit trace. -/
theorem aexit_exit_path_ignores_body_exception_witness :
    SessionAction.refreshObj 5 ∈
      (aexitRun Nat true
          { needCommitAndClose := false, objectsToRefresh := [5], statusCode := none }
          .ok).actions := by
  exact ((aexit_exit_path_ignores_body_exception Nat true
      { needCommitAndClose := false, objectsToRefresh := [5], statusCode := none }
      .ok).2.2.1 rfl).2 5 (by decide)

/-! ### Lemmas about the retry loop -/

/-- Recognize a connect attempt in the action trace. -/
def isConnectAttempt : ConnectAction → Bool
  | .connectAttempt _ => true
  | _ => false

/-- Recognize a sleep in the action trace. -/
def isSleep : ConnectAction → Bool
  | .sleepSeconds _ => true
  | _ => false

theorem connectLoop_attempt_count_le (results : Nat → AttemptResult)
    (fuel i : Nat) :
    ((connectLoop results i fuel).actions.countP isConnectAttempt) ≤ fuel := by
  induction fuel generalizing i with
  | zero => simp [connectLoop]
  | succ fuel ih =>
    cases h : results i <;>
      simp [connectLoop, h, List.countP_cons, isConnectAttempt, isSleep]
    exact ih (i + 1)

theorem connectLoop_sleep_five (results : Nat → AttemptResult)
    (fuel i n : Nat)
    (h : ConnectAction.sleepSeconds n ∈ (connectLoop results i fuel).actions) :
    n = 5 := by
  induction fuel generalizing i with
  | zero => simp [connectLoop] at h
  | succ fuel ih =>
    cases hr : results i <;> simp [connectLoop, hr] at h
    rcases h with h | h
    · exact h
    · exact ih (i + 1) h

theorem connectLoop_all_fail (results : Nat → AttemptResult) (fuel i : Nat)
    (h : ∀ j, i ≤ j → j < i + fuel → results j = .otherError) :
    (connectLoop results i fuel).outcome = .fellThrough ∧
    (connectLoop results i fuel).actions.countP isConnectAttempt = fuel ∧
    (connectLoop results i fuel).actions.countP isSleep = fuel := by
  induction fuel generalizing i with
  | zero => simp [connectLoop]
  | succ fuel ih =>
    have hi : results i = .otherError := h i (Nat.le_refl i) (by omega)
    have ihr := ih (i + 1) (fun j h1 h2 => h j (by omega) (by omega))
    simp [connectLoop, hi, List.countP_cons, isConnectAttempt, isSleep,
      ihr.1, ihr.2.1, ihr.2.2]

/-- C7 counterexample: when every one of the 20 connection attempts fails
transiently, `connect_create_if_not_exists` performs 20 attempts with a
5-second sleep after each, and then simply falls through the `for` loop and
returns normally — the routine contains no failure signal at all, so
exhausting all attempts is not fatal, contradicting the claim. -/
theorem connect_exhausted_attempts_return_normally :
    (connectCreateIfNotExists fun _ => .otherError).outcome =
      ConnectOutcome.fellThrough ∧
    ((connectCreateIfNotExists fun _ => .otherError).actions.countP
      isConnectAttempt) = 20 ∧
    ((connectCreateIfNotExists fun _ => .otherError).actions.countP
      isSleep) = 20 ∧
    ((connectCreateIfNotExists fun _ => .otherError).actions.all fun a =>
      match a with
      | .sleepSeconds n => n == 5
      | _ => true) = true := by
  refine ⟨by decide, by decide, by decide, by decide⟩

/-- C7 (amended): the connect routine retries transient failures with a
fixed 5-second delay for at most 20 attempts; when every attempt fails it
performs exactly 20 attempts and 20 sleeps and then returns normally
(falling through the loop) rather than signaling failure. -/
theorem connect_retry_bounded_fixed_delay (results : Nat → AttemptResult) :
    ((connectCreateIfNotExists results).actions.countP isConnectAttempt ≤ 20) ∧
    (∀ n, ConnectAction.sleepSeconds n ∈
        (connectCreateIfNotExists results).actions → n = 5) ∧
    ((∀ j, j < 20 → results j = .otherError) →
      (connectCreateIfNotExists results).outcome = .fellThrough ∧
      (connectCreateIfNotExists results).actions.countP isConnectAttempt = 20 ∧
      (connectCreateIfNotExists results).actions.countP isSleep = 20) := by
  refine ⟨connectLoop_attempt_count_le results 20 0,
    fun n h => connectLoop_sleep_five results 20 0 n h,
    fun h => connectLoop_all_fail results 20 0 (fun j h1 h2 => h j (by omega))⟩

/-- C7 witness: the amended theorem applied to the all-failures oracle,
discharging every hypothesis at concrete inputs. -/
theorem connect_retry_bounded_fixed_delay_witness :
    (connectCreateIfNotExists fun _ => .otherError).outcome =
      ConnectOutcome.fellThrough ∧ (5 : Nat) = 5 := by
  refine ⟨((connect_retry_bounded_fixed_delay fun _ => .otherError).2.2
      (fun j _ => rfl)).1,
    (connect_retry_bounded_fixed_delay fun _ => .otherError).2.1 5 (by decide)⟩

/-! ### Lemmas about eager-load normalization -/

theorem foldl_subqueryload {R : Type} (cs : List R) (l : Load R) :
    cs.foldl (fun acc c => acc.subqueryload c) l =
      { path := l.path ++ cs
        context := l.context ++
          (List.range cs.length).map fun n => l.path ++ cs.take (n + 1) } := by
  induction cs generalizing l with
  | nil => simp
  | cons c cs ih =>
    rw [List.foldl_cons, ih]
    simp only [Load.subqueryload, List.length_cons, List.range_succ_eq_map,
      List.map_cons, List.map_map]
    simp [Load.mk.injEq, List.append_assoc, Function.comp, List.take_succ_cons]

/-- C8 counterexample: a mapping entry with parent relation `0` and child
relations `[1, 2]` produces a single load directive whose load elements are
the paths `[0]`, `[0,1]` and `[0,1,2]` — the second child is loaded beneath
the first child (SQLAlchemy loader chaining descends the path on every
call), and no element loads it directly beneath the parent (`[0,2]` is
absent), contradicting the claim that each listed child relation is loaded
beneath the parent. -/
theorem select_in_load_second_child_not_under_parent :
    (queryAddSelectInLoad (emptySelect Int Nat)
        (.one (.withSub 0 [1, 2]))).options =
      [{ path := [0, 1, 2], context := [[0], [0, 1], [0, 1, 2]] }] ∧
    ∀ l ∈ (queryAddSelectInLoad (emptySelect Int Nat)
        (.one (.withSub 0 [1, 2]))).options, [0, 2] ∉ l.context := by
  refine ⟨by decide, by decide⟩

/-- C8 (amended): normalization accepts a single relation attribute, a
parent-with-children mapping, or a list mixing both forms, and attaches
exactly one load directive per entry to the query's options; a bare entry's
directive loads that relation, and a mapping entry's directive loads the
parent and then chains the listed children successively beneath it — the
n-th load element's path is the parent followed by the first n children, so
each child is loaded beneath the preceding one; when the mapping lists at
most one child, every listed child is loaded directly beneath the parent. -/
theorem query_add_select_in_load_spec
    (V R : Type) (q : SelectQuery V R) (tas : TableAttributes R) :
    ((queryAddSelectInLoad q tas).options.length =
      q.options.length + tas.toList.length) ∧
    (∀ r : R, entryLoad (.single r) = { path := [r], context := [[r]] }) ∧
    (∀ (p : R) (cs : List R),
      entryLoad (.withSub p cs) =
        { path := p :: cs
          context := (List.range (cs.length + 1)).map fun n => p :: cs.take n }) ∧
    (∀ (p : R) (cs : List R), cs.length ≤ 1 →
      ∀ c ∈ cs, [p, c] ∈ (entryLoad (.withSub p cs)).context) := by
  refine ⟨?_, fun r => rfl, ?_, ?_⟩
  · simp [queryAddSelectInLoad]
  · intro p cs
    show cs.foldl (fun acc c => acc.subqueryload c) (selectinload p) = _
    rw [foldl_subqueryload]
    simp only [selectinload, List.range_succ_eq_map, List.map_cons,
      List.map_map, Load.mk.injEq]
    constructor
    · rfl
    · simp [Function.comp, List.singleton_append]
  · intro p cs hlen c hc
    show [p, c] ∈
      (cs.foldl (fun acc c => acc.subqueryload c) (selectinload p)).context
    rw [foldl_subqueryload]
    cases cs with
    | nil => simp at hc
    | cons a t =>
      cases t with
      | nil =>
        rcases List.mem_singleton.mp hc with rfl
        simp [selectinload]
      | cons b t2 => simp at hlen

/-- C8 witness: the amended theorem applied at a concrete single-child
mapping entry, discharging its hypotheses. -/
theorem query_add_select_in_load_spec_witness :
    [0, 7] ∈ (entryLoad (R := Nat) (.withSub 0 [7])).context := by
  exact (query_add_select_in_load_spec Int Nat (emptySelect Int Nat)
      (.many [])).2.2.2 0 [7] (by decide) 7 (by decide)

/-! ### External-session mode -/

/-- The trace contains neither a commit nor a session close. -/
def noCommitNoClose {E : Type} (acts : List (SessionAction E)) : Prop :=
  ∀ a ∈ acts, a ≠ SessionAction.commitAttempt ∧ a ≠ SessionAction.closeSession

/-- C4: a service constructed with a resolved live session (not the
dependency-injection placeholder) has `_need_commit_and_close = False`, and
none of `_create`, `_update`, `_delete`, `_commit` ever commits or closes
that session: `_commit` performs no session call at all, the other
operations' traces never contain a commit attempt or a session close, and a
commit attempt can only appear in a `_commit` trace when the self-managed
flag is set. -/
theorem external_session_never_committed_or_closed
    (E K β : Type) [DecidableEq K] [DecidableEq β]
    (st : ServiceState E) (stU : ServiceState (K → Option β))
    (hst : st.needCommitAndClose = false)
    (hstU : stU.needCommitAndClose = false)
    (obj : E) (found : Option E) (foundU : Option (K → Option β))
    (fields : List (K × Option β)) (noneAsValue : Bool)
    (outcome : CommitOutcome) :
    ((initState E false).needCommitAndClose = false) ∧
    (serviceCommit E st.needCommitAndClose outcome =
      { actions := [], raised := none }) ∧
    noCommitNoClose (createOp E st obj outcome).actions ∧
    noCommitNoClose (updateOp stU foundU fields noneAsValue outcome).actions ∧
    noCommitNoClose (deleteOp E st found outcome).actions ∧
    (∀ b : Bool, SessionAction.commitAttempt ∈
      (serviceCommit E b outcome).actions → b = true) := by
  refine ⟨rfl, ?_, ?_, ?_, ?_, ?_⟩
  · rw [hst]; rfl
  · have hc : serviceCommit E st.needCommitAndClose outcome =
        { actions := [], raised := none } := by rw [hst]; rfl
    simp [createOp, hc, noCommitNoClose]
  · have hc : serviceCommit (K → Option β) stU.needCommitAndClose outcome =
        { actions := [], raised := none } := by rw [hstU]; rfl
    cases foundU with
    | none => simp [updateOp, noCommitNoClose]
    | some o => simp [updateOp, updateObjOp, hc, noCommitNoClose]
  · have hc : serviceCommit E st.needCommitAndClose outcome =
        { actions := [], raised := none } := by rw [hst]; rfl
    cases found with
    | none => simp [deleteOp, noCommitNoClose]
    | some o => simp [deleteOp, deleteObjOp, hc, noCommitNoClose]
  · intro b hb
    cases b with
    | true => rfl
    | false => simp [serviceCommit] at hb

/-- C4 witness: the theorem applied to a concrete externally-bound service
state, discharging both flag hypotheses. -/
theorem external_session_never_committed_or_closed_witness :
    noCommitNoClose
      (createOp Nat (initState Nat false) 3 (.integrityError "boom")).actions := by
  exact (external_session_never_committed_or_closed Nat String Int
      (initState Nat false) (initState (String → Option Int) false)
      rfl rfl 3 none none [] false (.integrityError "boom")).2.2.1

/-! ### Lemmas about the field-update loop -/

theorem serviceCommit_ok_raised (E : Type) (b : Bool) :
    (serviceCommit E b .ok).raised = none := by
  cases b <;> rfl

theorem applyFields_foldl_id {K β : Type} [DecidableEq K] [DecidableEq β]
    (fields : List (K × Option β)) (noneAsValue : Bool)
    (obj : K → Option β) (b : Bool)
    (h : ∀ kv ∈ fields, fieldApplied noneAsValue kv → obj kv.1 = kv.2) :
    fields.foldl (applyFieldStep noneAsValue) (obj, b) = (obj, b) := by
  induction fields with
  | nil => rfl
  | cons kv rest ih =>
    rw [List.foldl_cons]
    by_cases hskip : noneAsValue = false ∧ kv.2 = none
    · rw [show applyFieldStep noneAsValue (obj, b) kv = (obj, b) from by
        simp [applyFieldStep, hskip]]
      exact ih (fun kv' h1 h2 => h kv' (List.mem_cons_of_mem _ h1) h2)
    · have happ : fieldApplied noneAsValue kv := hskip
      have heq : obj kv.1 = kv.2 := h kv (List.mem_cons_self _ _) happ
      have hstep : applyFieldStep noneAsValue (obj, b) kv = (obj, b) := by
        simp only [applyFieldStep, if_neg hskip]
        rw [← heq]
        simp [Function.update_eq_self]
      rw [hstep]
      exact ih (fun kv' h1 h2 => h kv' (List.mem_cons_of_mem _ h1) h2)

theorem applyFields_foldl_absent_key {K β : Type} [DecidableEq K] [DecidableEq β]
    (fields : List (K × Option β)) (noneAsValue : Bool)
    (acc : (K → Option β) × Bool) (k : K)
    (h : k ∉ fields.map Prod.fst) :
    (fields.foldl (applyFieldStep noneAsValue) acc).1 k = acc.1 k := by
  induction fields generalizing acc with
  | nil => rfl
  | cons kv rest ih =>
    rw [List.foldl_cons]
    have hk : k ≠ kv.1 := by
      intro hcon; exact h (by simp [hcon])
    have hrest : k ∉ rest.map Prod.fst := fun hc => h (by simp [hc])
    rw [ih _ hrest]
    by_cases hskip : noneAsValue = false ∧ kv.2 = none
    · simp [applyFieldStep, hskip]
    · simp [applyFieldStep, hskip, Function.update_noteq hk]

theorem applyFields_foldl_modified_mono {K β : Type} [DecidableEq K] [DecidableEq β]
    (fields : List (K × Option β)) (noneAsValue : Bool)
    (acc : (K → Option β) × Bool) (h : acc.2 = true) :
    (fields.foldl (applyFieldStep noneAsValue) acc).2 = true := by
  induction fields generalizing acc with
  | nil => exact h
  | cons kv rest ih =>
    rw [List.foldl_cons]
    by_cases hskip : noneAsValue = false ∧ kv.2 = none
    · exact ih _ (by simp [applyFieldStep, hskip, h])
    · exact ih _ (by simp [applyFieldStep, hskip, h])

theorem applyFields_foldl_assigned {K β : Type} [DecidableEq K] [DecidableEq β]
    (fields : List (K × Option β)) (noneAsValue : Bool)
    (acc : (K → Option β) × Bool) (kv : K × Option β)
    (hnd : (fields.map Prod.fst).Nodup)
    (hmem : kv ∈ fields) (happ : fieldApplied noneAsValue kv) :
    (fields.foldl (applyFieldStep noneAsValue) acc).1 kv.1 = kv.2 := by
  induction fields generalizing acc with
  | nil => simp at hmem
  | cons h0 rest ih =>
    rw [List.foldl_cons]
    rcases List.mem_cons.mp hmem with rfl | hmem'
    · have hnotin : kv.1 ∉ rest.map Prod.fst := by
        simpa using (List.nodup_cons.mp hnd).1
      rw [applyFields_foldl_absent_key rest noneAsValue _ kv.1 hnotin]
      have : ¬(noneAsValue = false ∧ kv.2 = none) := happ
      simp [applyFieldStep, this, Function.update_same]
    · exact ih _ (List.nodup_cons.mp hnd).2 hmem'

theorem applyFields_foldl_modified {K β : Type} [DecidableEq K] [DecidableEq β]
    (fields : List (K × Option β)) (noneAsValue : Bool)
    (acc : (K → Option β) × Bool) (kv : K × Option β)
    (hnd : (fields.map Prod.fst).Nodup)
    (hmem : kv ∈ fields) (happ : fieldApplied noneAsValue kv)
    (hdiff : acc.1 kv.1 ≠ kv.2) :
    (fields.foldl (applyFieldStep noneAsValue) acc).2 = true := by
  induction fields generalizing acc with
  | nil => simp at hmem
  | cons h0 rest ih =>
    rw [List.foldl_cons]
    rcases List.mem_cons.mp hmem with rfl | hmem'
    · have : ¬(noneAsValue = false ∧ kv.2 = none) := happ
      apply applyFields_foldl_modified_mono
      simp [applyFieldStep, this, bne_iff_ne, hdiff]
    · have hkne : h0.1 ≠ kv.1 := by
        intro hcon
        have : kv.1 ∈ rest.map Prod.fst := List.mem_map_of_mem Prod.fst hmem'
        rw [← hcon] at this
        exact (List.nodup_cons.mp hnd).1 this
      apply ih _ (List.nodup_cons.mp hnd).2 hmem'
      by_cases hskip : noneAsValue = false ∧ h0.2 = none
      · simpa [applyFieldStep, hskip] using hdiff
      · simpa [applyFieldStep, hskip,
          Function.update_noteq (Ne.symm hkne)] using hdiff

theorem updateObjOp_commit_ok {K β : Type} [DecidableEq K] [DecidableEq β]
    (st : ServiceState (K → Option β)) (obj : K → Option β)
    (fields : List (K × Option β)) (noneAsValue : Bool) :
    updateObjOp st obj fields noneAsValue .ok =
      { state :=
          if (applyFields obj fields noneAsValue).2 = false then
            { st with statusCode := some 304 }
          else st
        actions := .add (applyFields obj fields noneAsValue).1 ::
          (serviceCommit (K → Option β) st.needCommitAndClose .ok).actions
        result := .ok (applyFields obj fields noneAsValue).1 } := by
  simp [updateObjOp, serviceCommit_ok_raised]

/-- C5: over the merged schema+overrides fields (fields whose value is the
unset sentinel are skipped unless absent-as-value mode is on), `_update_obj`
with a clean commit behaves as claimed: when every applied field's new value
equals the entity's old value, the response status is set to 304 and the
returned entity is exactly the original (stored values unchanged); when the
keys are distinct and at least one applied field differs, the response
status is left untouched and every applied field of the resulting entity
holds its given new value. -/
theorem update_obj_not_modified_304_or_persist
    {K β : Type} [DecidableEq K] [DecidableEq β]
    (st : ServiceState (K → Option β)) (obj : K → Option β)
    (fields : List (K × Option β)) (noneAsValue : Bool) :
    ((∀ kv ∈ fields, fieldApplied noneAsValue kv → obj kv.1 = kv.2) →
      (updateObjOp st obj fields noneAsValue .ok).state.statusCode = some 304 ∧
      (updateObjOp st obj fields noneAsValue .ok).result = .ok obj) ∧
    ((fields.map Prod.fst).Nodup →
      (∃ kv ∈ fields, fieldApplied noneAsValue kv ∧ obj kv.1 ≠ kv.2) →
      (updateObjOp st obj fields noneAsValue .ok).state.statusCode =
        st.statusCode ∧
      (updateObjOp st obj fields noneAsValue .ok).result =
        .ok (applyFields obj fields noneAsValue).1 ∧
      ∀ kv ∈ fields, fieldApplied noneAsValue kv →
        (applyFields obj fields noneAsValue).1 kv.1 = kv.2) := by
  constructor
  · intro hA
    have hid : applyFields obj fields noneAsValue = (obj, false) :=
      applyFields_foldl_id fields noneAsValue obj false hA
    rw [updateObjOp_commit_ok]
    simp [hid]
  · intro hnd hex
    obtain ⟨kv, hmem, happ, hdiff⟩ := hex
    have hmod : (applyFields obj fields noneAsValue).2 = true :=
      applyFields_foldl_modified fields noneAsValue (obj, false) kv
        hnd hmem happ hdiff
    rw [updateObjOp_commit_ok]
    refine ⟨by simp [hmod], by simp [hmod], ?_⟩
    intro kv' hmem' happ'
    exact applyFields_foldl_assigned fields noneAsValue (obj, false) kv'
      hnd hmem' happ'

/-- C5 witness: the theorem applied at concrete inputs — an update writing
the value already stored sets 304 and returns the entity unchanged; an
update writing a different value leaves the (unset) status untouched. -/
theorem update_obj_not_modified_304_or_persist_witness :
    ((updateObjOp (initState (String → Option Int) false)
        (fun k => if k = "name" then some 1 else none)
        [("name", some 1)] false .ok).state.statusCode = some 304) ∧
    ((updateObjOp (initState (String → Option Int) false)
        (fun k => if k = "name" then some 1 else none)
        [("name", some 2)] false .ok).state.statusCode =
      (initState (String → Option Int) false).statusCode) := by
  refine ⟨((update_obj_not_modified_304_or_persist
      (initState (String → Option Int) false)
      (fun k => if k = "name" then some 1 else none)
      [("name", some 1)] false).1 (by decide)).1,
    ((update_obj_not_modified_304_or_persist
      (initState (String → Option Int) false)
      (fun k => if k = "name" then some 1 else none)
      [("name", some 2)] false).2 (by decide) (by decide)).1⟩

/-! ### Lemmas about filter application -/

theorem qfwnav_filter_eq {V R : Type} [DecidableEq V]
    (kwargs : List (String × Option V)) (q : SelectQuery V R) :
    queryFilterWithoutNoneAsValue q kwargs =
      queryFilterWithoutNoneAsValue q (kwargs.filter fun kv => kv.2.isSome) := by
  induction kwargs generalizing q with
  | nil => rfl
  | cons kv rest ih =>
    simp only [queryFilterWithoutNoneAsValue, List.foldl_cons, List.filter_cons]
    cases h : kv.2.isSome with
    | true => simpa [h] using ih (q.filterBy [kv])
    | false => simpa [h] using ih q

theorem rowMatches_filterBy {V R : Type} [DecidableEq V]
    (q : SelectQuery V R) (kwargs : List (String × Option V))
    (row : String → Option V) :
    (q.filterBy kwargs).rowMatches row =
      (q.rowMatches row && kwargs.all fun kv => row kv.1 = kv.2) := by
  simp [SelectQuery.filterBy, SelectQuery.rowMatches, List.all_append]

theorem qfwnav_rowMatches {V R : Type} [DecidableEq V]
    (kwargs : List (String × Option V)) (q : SelectQuery V R)
    (row : String → Option V) :
    (queryFilterWithoutNoneAsValue q kwargs).rowMatches row =
      (q.rowMatches row &&
        kwargs.all fun kv => kv.2.isNone || row kv.1 = kv.2) := by
  induction kwargs generalizing q with
  | nil => simp [queryFilterWithoutNoneAsValue]
  | cons kv rest ih =>
    simp only [queryFilterWithoutNoneAsValue, List.foldl_cons]
    cases h : kv.2.isSome with
    | true =>
      have hn : kv.2.isNone = false := by
        cases hv : kv.2 <;> simp [hv] at h ⊢
      have := ih (q.filterBy [kv])
      simp only [queryFilterWithoutNoneAsValue] at this
      simp [h, this, rowMatches_filterBy, hn, Bool.and_assoc]
    | false =>
      have hn : kv.2.isNone = true := by
        cases hv : kv.2 <;> simp [hv] at h ⊢
      have := ih q
      simp only [queryFilterWithoutNoneAsValue] at this
      simp [h, this, hn]

/-- C6: in the default skip-absent mode the built query is unchanged by
dropping every keyword whose value is the unset sentinel (so the result is
unaffected by those keys), and its predicates require every remaining
(non-`none`) filter to match, composed as logical AND; in absent-as-value
mode every keyword — `none` included — must literally match, again composed
as AND. -/
theorem query_filter_skip_absent_and_composition
    {V R : Type} [DecidableEq V] (q : SelectQuery V R)
    (kwargs : List (String × Option V)) (row : String → Option V) :
    (queryFilter q false kwargs =
      queryFilter q false (kwargs.filter fun kv => kv.2.isSome)) ∧
    ((queryFilter q true kwargs).rowMatches row =
      (q.rowMatches row && kwargs.all fun kv => row kv.1 = kv.2)) ∧
    ((queryFilter q false kwargs).rowMatches row =
      (q.rowMatches row &&
        kwargs.all fun kv => kv.2.isNone || row kv.1 = kv.2)) := by
  exact ⟨qfwnav_filter_eq kwargs q, rowMatches_filterBy q kwargs row,
    qfwnav_rowMatches kwargs q row⟩

end SqlService
